import Mathlib

/-!
Verification model of the `api-ref-resolver` reference-resolution engine
(`src/ApiRefResolver.ts`, `src/RefVisitor.ts`, `src/JsonNavigation.ts`).

The TypeScript code manipulates parsed YAML/JSON documents as mutable
JavaScript objects.  We embed documents as an inductive `Json` type whose
objects are ordered association lists (JavaScript objects preserve key
insertion order), and we embed the resolver's mutable instance state
(`apiDocument`, `resolvedRefToRefMap`, `urlToApiObjectMap`,
`alreadyRewritten`, `changed`) as an explicit state record threaded through
every operation.  I/O (reading a file or URL) is modelled by a finite
`world` map from normalized URL strings to parsed documents, and every
actual read is appended to a `fetched` log so that theorems can speak about
"no I/O".  Failures (assertion violations, thrown conflicts, unreachable
resources, JSON-pointer misses) are `Except` errors.

Two deliberate simplifications, stated here once:
* JavaScript `===` object identity is modelled by structural equality
  (`Json.beq`); the concrete scenarios in the theorems below are arranged so
  that the two coincide.
* WHATWG URL normalization is modelled textually (scheme detection, fragment
  split, directory join) without `..` collapsing; the concrete scenarios use
  absolute `file:///` references where the two agree.
-/

namespace ARR

/-- A JSON value as produced by `js-yaml` with `JSON_SCHEMA`.  JavaScript
objects are ordered key/value lists. -/
inductive Json where
  | null : Json
  | bool (b : Bool) : Json
  | num (n : Int) : Json
  | str (s : String) : Json
  | arr (items : List Json) : Json
  | obj (entries : List (String × Json)) : Json
deriving Repr, Inhabited

mutual

/-- Structural equality on JSON values (model of deep value equality; also
used to model the `existing === refObject` identity test, see header note). -/
def Json.beq : Json → Json → Bool
  | .null, .null => true
  | .bool a, .bool b => a == b
  | .num a, .num b => a == b
  | .str a, .str b => a == b
  | .arr a, .arr b => Json.beqList a b
  | .obj a, .obj b => Json.beqEntries a b
  | _, _ => false

def Json.beqList : List Json → List Json → Bool
  | [], [] => true
  | a :: as, b :: bs => Json.beq a b && Json.beqList as bs
  | _, _ => false

def Json.beqEntries : List (String × Json) → List (String × Json) → Bool
  | [], [] => true
  | (k, v) :: as, (l, w) :: bs => k == l && Json.beq v w && Json.beqEntries as bs
  | _, _ => false

end

instance : BEq Json := ⟨Json.beq⟩

/-- Look up a key in a JSON object (`node[key]`); `none` for non-objects or
missing keys (JavaScript `undefined`). -/
def Json.find? : Json → String → Option Json
  | .obj entries, key => entries.lookup key
  | _, _ => none

/-- `node.hasOwnProperty(key)`. -/
def Json.hasKey (j : Json) (key : String) : Bool :=
  (j.find? key).isSome

/-- JavaScript assignment `map[key] = v` on a string-keyed map: replaces the
value in place if the key exists (key order kept), otherwise appends. -/
def objSetS {α : Type} : List (String × α) → String → α → List (String × α)
  | [], key, v => [(key, v)]
  | (k, w) :: rest, key, v =>
    if k = key then (k, v) :: rest else (k, w) :: objSetS rest key v

/-- JavaScript assignment `node[key] = v` on a JSON object. -/
def objSet (entries : List (String × Json)) (key : String) (v : Json) :
    List (String × Json) :=
  objSetS entries key v

/-- `node[key] = v` on a JSON value; non-objects are unchanged. -/
def Json.setKey : Json → String → Json → Json
  | .obj entries, key, v => .obj (objSet entries key v)
  | j, _, _ => j

/-- JavaScript `delete node[key]`. -/
def Json.delKey : Json → String → Json
  | .obj entries, key => .obj (entries.filter (fun e => e.1 ≠ key))
  | j, _ => j

/-- `isRef` from `RefVisitor.ts`: an object with a string-valued `$ref`. -/
def isRefB (j : Json) : Bool :=
  match j.find? "$ref" with
  | some (.str _) => true
  | _ => false

/-- The temporary idempotency marker `ApiRefResolver.TEMPORARY_MARKER`. -/
def marker : String := "x__resolved__"

/-- `isResolved` from `RefVisitor.ts`: the node carries the temporary marker. -/
def isResolvedB (j : Json) : Bool := j.hasKey marker

/-! ## Navigation paths and JSON pointers (`JsonNavigation.ts`, `json-pointer`) -/

/-- `JsonKey`: a string object key or a numeric array index. -/
inductive JKey where
  | str (s : String) : JKey
  | idx (n : Nat) : JKey
deriving Repr, DecidableEq

/-! Structural string helpers.  The Lean core `String` functions used by the
source (`splitOn`, `replace`, `startsWith`, `drop`, `toString` on numbers)
are compiled by well-founded recursion and do not reduce definitionally, so
the model uses equivalent structural implementations over the character
list. -/

/-- `String.startsWith`. -/
def strStartsWith (s pre : String) : Bool :=
  pre.data.isPrefixOf s.data

/-- `String.drop`. -/
def strDrop (s : String) (n : Nat) : String :=
  .mk (s.data.drop n)

/-- Split a character list on a separator character. -/
def splitOnCharAux (c : Char) : List Char → List Char → List (List Char)
  | [], acc => [acc.reverse]
  | x :: xs, acc =>
    if x = c then acc.reverse :: splitOnCharAux c xs []
    else splitOnCharAux c xs (x :: acc)

/-- `String.splitOn` with a single-character separator. -/
def splitOnChar (c : Char) (s : String) : List String :=
  (splitOnCharAux c s.data []).map String.mk

/-- Decimal digits of a natural number (fueled; `natToStr` supplies enough). -/
def natToStrAux : Nat → Nat → List Char → List Char
  | 0, _, acc => acc
  | fuel + 1, n, acc =>
    let acc := Char.ofNat (48 + n % 10) :: acc
    if n < 10 then acc else natToStrAux fuel (n / 10) acc

/-- `toString` on a natural number. -/
def natToStr (n : Nat) : String :=
  .mk (natToStrAux (n + 1) n [])

/-- The digit value of an all-digit string (`String.toNat!`). -/
def digitsToNat (s : String) : Nat :=
  s.data.foldl (fun a c => a * 10 + (c.toNat - 48)) 0

/-- JavaScript property access coerces numbers to strings. -/
def JKey.toStr : JKey → String
  | .str s => s
  | .idx n => natToStr n

/-- `~` to `~0` and `/` to `~1` (JSON-pointer escaping, as
`s.replace("~","~0").replace("/","~1")` behaves). -/
def escapeChars : List Char → List Char
  | [] => []
  | c :: rest =>
    if c = '~' then '~' :: '0' :: escapeChars rest
    else if c = '/' then '~' :: '1' :: escapeChars rest
    else c :: escapeChars rest

/-- JSON-pointer escaping. -/
def escapeKey (s : String) : String := .mk (escapeChars s.data)

/-- `~1` back to `/` (left-to-right, non-overlapping). -/
def unescape1 : List Char → List Char
  | '~' :: '1' :: rest => '/' :: unescape1 rest
  | c :: rest => c :: unescape1 rest
  | [] => []

/-- `~0` back to `~` (left-to-right, non-overlapping). -/
def unescape0 : List Char → List Char
  | '~' :: '0' :: rest => '~' :: unescape0 rest
  | c :: rest => c :: unescape0 rest
  | [] => []

/-- JSON-pointer unescaping (`s.replace("~1","/").replace("~0","~")`). -/
def unescapeKey (s : String) : String := .mk (unescape0 (unescape1 s.data))

/-- `jsonPointer.compile`: keys to a pointer string such as `/a/~1b/2`. -/
def compilePtr (keys : List JKey) : String :=
  keys.foldl (fun acc k => acc ++ "/" ++ escapeKey k.toStr) ""

/-- `JsonNavigation.asFragment` / `asFragment(keys, true)`: `#` + pointer. -/
def navAsFragment (keys : List JKey) : String :=
  "#" ++ compilePtr keys

/-- The `json-pointer` parser maps all-digit segments to numbers
(`JsonNavigation.asKeys` keeps that behavior). -/
def segToKey (s : String) : JKey :=
  let u := unescapeKey s
  if u.length > 0 ∧ u.data.all Char.isDigit then .idx (digitsToNat u) else .str u

/-- `JsonNavigation.asKeys`: parse a `#/a/b` fragment into keys. -/
def asKeys (fragment : String) : List JKey :=
  ((splitOnChar '/' (strDrop fragment 1)).tail).map segToKey

/-- `JsonNavigation.isAtComponent`: exactly three keys starting with
`components`. -/
def isAtComponent (keys : List JKey) : Bool :=
  keys.length = 3 && keys.head? = some (.str "components")

/-- Read the item at a key (object keys by name, arrays by index; JavaScript
coerces numeric keys on objects to strings). -/
def Json.getKey : Json → JKey → Option Json
  | .obj entries, k => entries.lookup k.toStr
  | .arr items, .idx n => items.get? n
  | _, _ => none

/-- Traverse a key path from a document root (`jsonPointer` get /
`itemAtFragment` / `itemAtPointer`). -/
def getAt : Json → List JKey → Option Json
  | j, [] => some j
  | j, k :: rest => match j.getKey k with
    | some v => getAt v rest
    | none => none

/-- `itemAtFragment`: look up a `#/...` fragment; `none` both for an empty
fragment and for a missing path (the caller decides which is an error). -/
def itemAtFragment (doc : Json) (fragment : String) : Option Json :=
  if fragment = "" then none else getAt doc (asKeys fragment)

/-- Functional update at one key. -/
def Json.putKey : Json → JKey → Json → Json
  | .obj entries, k, v => .obj (objSet entries k.toStr v)
  | .arr items, .idx n, v => .arr (items.set n v)
  | j, _, _ => j

/-- Functional update at a key path (models an in-place heap write to the
document tree at that path). -/
def setAt : Json → List JKey → Json → Json
  | _, [], v => v
  | j, k :: rest, v => match j.getKey k with
    | some child => j.putKey k (setAt child rest v)
    | none => j.putKey k (setAt .null rest v)

/-! ## URLs (`new URL`, `urlNonFragment`, `urlFragment`, `relativeUrl`) -/

/-- A URL split into its non-fragment part and its `#...` fragment (the
fragment keeps the leading `#`, as `url.hash` does; empty when absent). -/
structure Url where
  base : String
  hash : String
deriving Repr, DecidableEq

/-- `url.href`. -/
def Url.href (u : Url) : String := u.base ++ u.hash

/-- Split a URL string at its first `#` (as `url.hash` does). -/
def splitHash (s : String) : Url :=
  let pre := s.data.takeWhile (fun c => c ≠ '#')
  ⟨.mk pre, .mk (s.data.drop pre.length)⟩

/-- Scheme detection (the model covers the schemes the tool handles). -/
def hasScheme (s : String) : Bool :=
  strStartsWith s "file:" || strStartsWith s "http:" || strStartsWith s "https:"

/-- The directory prefix of a path, up to and including the last `/`. -/
def dirOf (s : String) : String :=
  .mk ((s.data.reverse.dropWhile (fun c => c ≠ '/')).reverse)

/-- `new URL(ref, base)`: absolute references are parsed as-is, pure-fragment
references replace the base's fragment, relative paths are joined onto the
base's directory (no `..` collapsing in the model, see header note). -/
def resolveUrl (ref : String) (baseHref : String) : Url :=
  if hasScheme ref then splitHash ref
  else if strStartsWith ref "#" then ⟨(splitHash baseHref).base, ref⟩
  else
    let r := splitHash ref
    ⟨dirOf (splitHash baseHref).base ++ r.base, r.hash⟩

/-- `ApiRefResolver.urlNonFragment`. -/
def urlNonFragment (u : Url) : Url := ⟨u.base, ""⟩

/-- `COMPONENT_REGEXP`: `/^#\/components\/\w+\/[^\/]+$/` on `url.hash`. -/
def isComponentFragment (h : String) : Bool :=
  match splitOnChar '/' h with
  | ["#", c, sec, name] =>
    c = "components" && sec.length > 0 &&
      sec.data.all (fun ch => ch.isAlphanum || ch = '_') && name.length > 0
  | _ => false

/-! ## Resolver configuration and instance state -/

/-- `ApiRefOptions.conflictStrategy`. -/
inductive Strategy where
  | error | rename | ignore
deriving Repr, DecidableEq

/-- The options record (`verbose` and `outputFormat` have no observable
effect on resolution and are omitted). -/
structure Options where
  conflictStrategy : Option Strategy := none
deriving Repr, DecidableEq

/-- Per-run constants: the root URL (`this.url`), the options, the external
universe of fetchable documents, and the timestamp (`this.dateTime`). -/
structure Config where
  rootUrl : String
  options : Options
  world : List (String × Json)
  dateTime : String

/-- The mutable resolver instance state.  `fetched` logs every actual read of
an external resource (cache misses), so "no I/O" is `fetched` unchanged.
`rootLive` records that the root cache entry aliases the live `apiDocument`
(in TypeScript `urlToApiObjectMap[this.url.href] = this.apiDocument` stores a
reference into the same mutating heap object). -/
structure RState where
  apiDocument : Json := .null
  memo : List (String × String) := []
  cache : List (String × Json) := []
  rewrittenPath : List String := []
  rewrittenFragment : List String := []
  changed : Bool := false
  fetched : List String := []
  rootLive : Bool := false
deriving Repr

/-- Failure outcomes of a run. -/
inductive Err where
  | doubleRegister (ref : String) : Err
  | thrown (msg : String) : Err
  | ioError (url : String) : Err
  | pointerFail (frag : String) : Err
  | assertFail (what : String) : Err
  | fuelExhausted : Err
deriving Repr, DecidableEq

/-- `replacementForRef`. -/
def replacementForRef (st : RState) (reference : String) : Option String :=
  st.memo.lookup reference

/-- `rememberReplacementForRef`: the `assert` that the reference has no
replacement yet is the `doubleRegister` error. -/
def rememberReplacementForRef (st : RState) (reference replacementRef : String) :
    Except Err RState :=
  if (st.memo.lookup reference).isSome then .error (.doubleRegister reference)
  else .ok { st with memo := st.memo ++ [(reference, replacementRef)] }

/-- Read a cached document; the root entry aliases the live `apiDocument`. -/
def cachedDoc (cfg : Config) (st : RState) (key : String) : Option Json :=
  if st.rootLive ∧ key = cfg.rootUrl then some st.apiDocument
  else st.cache.lookup key

/-- Store a document under a cache key (through the root alias if needed). -/
def storeDoc (cfg : Config) (st : RState) (key : String) (doc : Json) : RState :=
  if st.rootLive ∧ key = cfg.rootUrl then { st with apiDocument := doc }
  else { st with cache := objSetS st.cache key doc }

/-- `ApiRefResolver.api`: return the cached parse for the non-fragment URL or
read it from the world (logging the read), plus the item at the fragment.
A present fragment addressing a missing path throws (`json-pointer` throws). -/
def apiFetch (cfg : Config) (st : RState) (u : Url) :
    Except Err (Json × Option Json × RState) :=
  match cachedDoc cfg st u.base with
  | some doc =>
    if u.hash = "" then .ok (doc, none, st)
    else match itemAtFragment doc u.hash with
      | some item => .ok (doc, some item, st)
      | none => .error (.pointerFail u.hash)
  | none =>
    match cfg.world.lookup u.base with
    | none => .error (.ioError u.base)
    | some doc =>
      if u.hash = "" then
        .ok (doc, none, { st with cache := objSetS st.cache u.base doc,
                                  fetched := st.fetched ++ [u.base] })
      else match itemAtFragment doc u.hash with
        | some item =>
          .ok (doc, some item, { st with cache := objSetS st.cache u.base doc,
                                         fetched := st.fetched ++ [u.base] })
        | none => .error (.pointerFail u.hash)

/-! ## Pure document transforms (rewrite visitors, tag, merge, cleanup) -/

mutual

/-- `visitRefObjects` with a pure `$ref`-string rewriting callback: every
unmarked reference object's `$ref` value is mapped through `f`; children are
always recursed into (marked reference objects keep their `$ref` but their
children are still walked). -/
def rewriteRefs (f : String → String) : Json → Json
  | .arr items => .arr (rewriteRefsList f items)
  | .obj entries =>
    let walked := rewriteRefsEntries f entries
    if isRefB (.obj entries) && !isResolvedB (.obj entries) then
      match entries.lookup "$ref" with
      | some (.str s) => .obj (objSet walked "$ref" (.str (f s)))
      | _ => .obj walked
    else .obj walked
  | j => j

def rewriteRefsList (f : String → String) : List Json → List Json
  | [] => []
  | j :: rest => rewriteRefs f j :: rewriteRefsList f rest

def rewriteRefsEntries (f : String → String) :
    List (String × Json) → List (String × Json)
  | [] => []
  | (k, v) :: rest => (k, rewriteRefs f v) :: rewriteRefsEntries f rest

end

/-- `rewriteRefPaths`: normalize every `$ref` in a cached document against the
document's own URL, at most once per document (`alreadyRewritten.path`). -/
def rewriteRefPathsM (cfg : Config) (st : RState) (documentUrl : Url) : RState :=
  if st.rewrittenPath.contains documentUrl.base then st
  else match cachedDoc cfg st documentUrl.base with
    | none => st
    | some doc =>
      { storeDoc cfg st documentUrl.base
          (rewriteRefs (fun r => (resolveUrl r documentUrl.base).href) doc) with
        rewrittenPath := documentUrl.base :: st.rewrittenPath }

/-- `rewriteRefFragments`: prefix every local `#/...` `$ref` in a cached
document with the navigation fragment where the document is being spliced,
at most once per document (`alreadyRewritten.fragment`). -/
def rewriteRefFragmentsM (cfg : Config) (st : RState) (documentUrl : Url)
    (nav : List JKey) : RState :=
  if st.rewrittenFragment.contains documentUrl.base then st
  else match cachedDoc cfg st documentUrl.base with
    | none => st
    | some doc =>
      { storeDoc cfg st documentUrl.base
          (rewriteRefs
            (fun r => if strStartsWith r "#" then navAsFragment nav ++ strDrop r 1
                      else r) doc) with
        rewrittenFragment := documentUrl.base :: st.rewrittenFragment }

/-- `tag(item, url, tagDateTime)`: stamp provenance and the temporary marker
on an object (the TypeScript guard `typeof item === 'object'` also lets
arrays through; the model restricts tagging to objects, which is the only
case the code exercises). -/
def tagItem (item : Json) (href : String) (dateTime : Option String) : Json :=
  match item with
  | .obj _ =>
    let j := item.setKey "x-resolved-from" (.str href)
    let j := match dateTime with
      | some dt => j.setKey "x-resolved-at" (.str dt)
      | none => j
    j.setKey marker (.bool true)
  | _ => item

/-- `mergeRefObject`: overlay the reference node's non-`$ref` properties onto
the fetched item (`{ ...apiDocument, ...refProperties }`; reference
properties win).  A non-object item yields JavaScript `undefined`, modelled
as `null`. -/
def mergeRefObject (refObject item : Json) : Json :=
  match item with
  | .obj itemEntries =>
    match refObject with
    | .obj refEntries =>
      let refProps := refEntries.filter (fun e => e.1 ≠ "$ref")
      .obj (refProps.foldl (fun acc e => objSet acc e.1 e.2) itemEntries)
    | _ => .obj itemEntries
  | _ => .null

mutual

/-- `cleanup`: recursively delete every temporary `x__resolved__` marker. -/
def cleanup : Json → Json
  | .obj entries => .obj (cleanupEntries entries)
  | .arr items => .arr (cleanupList items)
  | j => j

def cleanupList : List Json → List Json
  | [] => []
  | j :: rest => cleanup j :: cleanupList rest

def cleanupEntries : List (String × Json) → List (String × Json)
  | [] => []
  | (k, v) :: rest =>
    if k = marker then cleanupEntries rest
    else (k, cleanup v) :: cleanupEntries rest

end

/-! ## Conflict checking (`checkComponentConflict`) -/

/-- `ComponentLocation` (the `section` object itself is read back from the
document by name instead of being aliased). -/
structure ComponentLocation where
  sectionName : String
  componentName : String
deriving Repr, DecidableEq

/-- The `rename` loop: try `name`, `name1`, `name2`, … until a candidate is
not a key of `taken`.  NOTE: the source passes the top-level `components`
object here (whose keys are the section names), not the section. -/
def renameGo (taken : Json) (base : String) : Nat → Nat → String
  | 0, suffix => base ++ toString suffix
  | fuel + 1, suffix =>
    let candidate := if suffix = 0 then base else base ++ natToStr suffix
    if taken.hasKey candidate then renameGo taken base fuel (suffix + 1)
    else candidate

/-- First available candidate name with respect to the keys of `taken`. -/
def renameCandidate (taken : Json) (base : String) : String :=
  match taken with
  | .obj entries => renameGo taken base (entries.length + 1) 0
  | _ => base

/-- The section-creation part of `checkComponentConflict`: create the
`components` object and the section object when missing. -/
def ensureSection (doc : Json) (sectionName : String) : Json :=
  let doc1 := if doc.hasKey "components" then doc
              else doc.setKey "components" (.obj [])
  let componentsObj := ((doc1.find? "components").getD (.obj []))
  if componentsObj.hasKey sectionName then doc1
  else doc1.setKey "components" (componentsObj.setKey sectionName (.obj []))

/-- `checkComponentConflict`: create the `components` object and section if
missing, detect an existing occupant, apply the conflict strategy, and
return the (possibly renamed) component keys and landing location. -/
def checkComponentConflict (cfg : Config) (st : RState) (refObject : Json)
    (componentKeys : List JKey) (urlNoFragmentHref : String) :
    Except Err (RState × List JKey × ComponentLocation) :=
  match componentKeys with
  | [k0, k1, k2] =>
    if k0 ≠ .str "components" then .error (.assertFail "componentKeys[0] === components")
    else
      let sectionName := k1.toStr
      let componentName := k2.toStr
      let doc2 := ensureSection st.apiDocument sectionName
      let st1 := { st with apiDocument := doc2 }
      match getAt doc2 [.str "components", .str sectionName, .str componentName] with
      | none => .ok (st1, componentKeys, ⟨sectionName, componentName⟩)
      | some existing =>
        if Json.beq existing refObject then
          .ok (st1, componentKeys, ⟨sectionName, componentName⟩)
        else
          let resolvedFrom := existing.find? "x-resolved-from"
          let sameResolution :=
            match resolvedFrom with
            | some (.str s) => s = urlNoFragmentHref
            | _ => false
          if !sameResolution && cfg.options.conflictStrategy = some .error then
            .error (.thrown "Cannot embed component ")
          else if cfg.options.conflictStrategy = some .ignore then
            .ok (st1, componentKeys, ⟨sectionName, componentName⟩)
          else
            let components := ((st1.apiDocument.find? "components").getD (.obj []))
            let candidate := renameCandidate components componentName
            .ok (st1, [k0, k1, .str candidate], ⟨sectionName, candidate⟩)
  | _ => .error (.assertFail "componentKeys shape")

/-! ## The three inliners and the resolving visitor

Each returns `(result, samePlace, state)`.  `samePlace = true` models the
TypeScript code returning the very reference node it mutated in place (the
walk then updates the tree at the node's path and keeps recursing there);
`samePlace = false` models returning a fresh object (the walk recurses into
the original node's children for their side effects and then replaces the
tree entry with the fresh result, as the caller's assignment does). -/

/-- Write the current document at a path (a heap write through the live
`apiDocument`). -/
def setDoc (st : RState) (path : List JKey) (v : Json) : RState :=
  { st with apiDocument := setAt st.apiDocument path v }

/-- `processComponentReplacement` (`$ref` with a `/components/<s>/<n>`
fragment). -/
def processComponentReplacement (cfg : Config) (st : RState) (url : Url)
    (refObject : Json) (nav : List JKey) :
    Except Err (Json × Bool × RState) := do
  if url.hash = "" then throw (.assertFail "normalizedRefUrl.hash")
  if !isComponentFragment url.hash then throw (.assertFail "COMPONENT_REGEXP")
  let reference := url.href
  match replacementForRef st reference with
  | some seen => return (refObject.setKey "$ref" (.str seen), true, st)
  | none =>
    let urlNoFragment := urlNonFragment url
    let (_, _, st) ← apiFetch cfg st url
    let st := rewriteRefPathsM cfg st urlNoFragment
    -- `item` aliases into the cached document, so the path rewrite above is
    -- visible in it: re-extract it from the rewritten cache entry.
    let item ← match (cachedDoc cfg st urlNoFragment.base).bind
        (fun d => itemAtFragment d url.hash) with
      | some item => pure item
      | none => throw (.pointerFail url.hash)
    let componentKeys := asKeys url.hash
    let item := tagItem item url.href none
    let resolvedRef := navAsFragment nav
    let st ← rememberReplacementForRef st reference resolvedRef
    let (st, componentKeys, loc) ←
      checkComponentConflict cfg st refObject componentKeys urlNoFragment.href
    let slotPath := [JKey.str "components", .str loc.sectionName, .str loc.componentName]
    if isAtComponent nav then
      let component := (getAt st.apiDocument slotPath).getD .null
      if isRefB component then
        let merged := mergeRefObject refObject item
        let st := setDoc st slotPath merged
        return (merged, false, st)
      else
        let st := setDoc st slotPath item
        return (item, false, st)
    else
      let st := setDoc st slotPath item
      let refObject := refObject.setKey "$ref" (.str (navAsFragment componentKeys))
      return (refObject, true, st)

/-- `processFullReplacement` (`$ref` with no fragment: whole-document
inline). -/
def processFullReplacement (cfg : Config) (st : RState) (url : Url)
    (refObject : Json) (nav : List JKey) :
    Except Err (Json × Bool × RState) := do
  if url.hash ≠ "" then throw (.assertFail "normalizedRefUrl.hash === empty")
  let reference := url.href
  match replacementForRef st reference with
  | some seen => return (refObject.setKey "$ref" (.str seen), true, st)
  | none =>
    let (_, _, st) ← apiFetch cfg st url
    let resolvedRef := navAsFragment nav
    let st ← rememberReplacementForRef st reference resolvedRef
    let st := rewriteRefFragmentsM cfg st url nav
    let st := rewriteRefPathsM cfg st url
    let api := ((cachedDoc cfg st url.base).getD .null)
    let merged := mergeRefObject refObject api
    let merged := tagItem merged url.href none
    return (merged, false, st)

/-- `processOtherReplacement` (`$ref` with a non-empty, non-component
fragment).  Note that the memo key is the raw `$ref` string and the memo
value is the source URL's own fragment. -/
def processOtherReplacement (cfg : Config) (st : RState) (url : Url)
    (refObject : Json) (reference : String) :
    Except Err (Json × Bool × RState) := do
  if url.hash = "" then throw (.assertFail "normalizedRefUrl.hash")
  if isComponentFragment url.hash then throw (.assertFail "not COMPONENT_REGEXP")
  match replacementForRef st reference with
  | some seen => return (refObject.setKey "$ref" (.str seen), true, st)
  | none =>
    let urlNoFragment := urlNonFragment url
    let (_, _, st) ← apiFetch cfg st url
    let st := rewriteRefPathsM cfg st urlNoFragment
    let item ← match (cachedDoc cfg st urlNoFragment.base).bind
        (fun d => itemAtFragment d url.hash) with
      | some item => pure item
      | none => throw (.pointerFail url.hash)
    let resolvedRef := url.hash
    let st ← rememberReplacementForRef st reference resolvedRef
    let item := tagItem item url.href none
    let merged := mergeRefObject refObject item
    return (merged, false, st)

/-- `refResolvingVisitor`: classify a reference node and dispatch. -/
def refResolvingVisitor (cfg : Config) (st : RState) (refObject : Json)
    (nav : List JKey) : Except Err (Json × Bool × RState) :=
  match refObject.find? "$ref" with
  | some (.str ref) =>
    if strStartsWith ref "#" then .ok (refObject, true, st)
    else match replacementForRef st ref with
    | some rep => .ok (refObject.setKey "$ref" (.str rep), true, st)
    | none =>
      let st := { st with changed := true }
      let url := resolveUrl ref cfg.rootUrl
      if url.hash = "" then processFullReplacement cfg st url refObject nav
      else if isComponentFragment url.hash then
        processComponentReplacement cfg st url refObject nav
      else processOtherReplacement cfg st url refObject ref
  | _ => .ok (refObject, true, st)

/-- The `objectVisitor` built in `visitRefObjects`: reference nodes carrying
the marker are returned untouched (the callback is not invoked); all other
objects pass through unchanged; unmarked reference nodes go to the resolving
visitor. -/
def objectVisitorStep (cfg : Config) (st : RState) (node : Json)
    (nav : List JKey) : Except Err (Json × Bool × RState) :=
  if isRefB node then
    if isResolvedB node then .ok (node, true, st)
    else refResolvingVisitor cfg st node nav
  else .ok (node, true, st)

/-! ## The traversal (`visitRefObjects` / `walkObject` over the live
document)

The walk is addressed by paths into the live `apiDocument` so that visitor
side effects on other parts of the tree (component insertions) are seen by
the rest of the pass, exactly as the shared-heap TypeScript walk sees them.
When a visitor returns a fresh object the TypeScript walk still recurses
into the children of the *original* node (for their side effects) and the
caller then overwrites the tree entry with the fresh result; `walkDetached`
models that recursion over the detached subtree.  Fuel makes the recursion
on a mutating tree well-founded; exhausting it is an error rather than an
answer. -/

mutual

/-- Walk the node at `path` in the live document.  All walk functions consume
one unit of fuel per call so that the mutual recursion is structural on the
fuel (the TypeScript recursion is on the mutating tree itself). -/
def walkPath (cfg : Config) : Nat → List JKey → RState → Except Err RState
  | 0, _, _ => .error .fuelExhausted
  | fuel + 1, path, st =>
    match getAt st.apiDocument path with
    | none => .ok st
    | some node =>
      match node with
      | .arr items => walkIdxs cfg fuel path (List.range items.length) st
      | .obj entries => do
        let (r, same, st1) ← objectVisitorStep cfg st node path
        if same then
          let st2 := setDoc st1 path r
          walkKeys cfg fuel path (entries.map (fun e => e.1)) st2
        else
          let st2 ← walkDetachedChildren cfg fuel entries path st1
          .ok (setDoc st2 path r)
      | _ => .ok st

/-- Walk the object children named by the key snapshot. -/
def walkKeys (cfg : Config) :
    Nat → List JKey → List String → RState → Except Err RState
  | 0, _, _, _ => .error .fuelExhausted
  | _ + 1, _, [], st => .ok st
  | fuel + 1, path, k :: ks, st => do
    let st1 ← walkPath cfg fuel (path ++ [.str k]) st
    walkKeys cfg fuel path ks st1

/-- Walk the array elements at the index snapshot. -/
def walkIdxs (cfg : Config) :
    Nat → List JKey → List Nat → RState → Except Err RState
  | 0, _, _, _ => .error .fuelExhausted
  | _ + 1, _, [], st => .ok st
  | fuel + 1, path, i :: is, st => do
    let st1 ← walkPath cfg fuel (path ++ [.idx i]) st
    walkIdxs cfg fuel path is st1

/-- Recurse into the children of a node that was detached from the tree by a
fresh replacement: tree updates to the detached subtree are discarded, state
effects are kept. -/
def walkDetachedChildren (cfg : Config) :
    Nat → List (String × Json) → List JKey → RState → Except Err RState
  | 0, _, _, _ => .error .fuelExhausted
  | _ + 1, [], _, st => .ok st
  | fuel + 1, (k, v) :: rest, path, st => do
    let (_, st1) ← walkDetached cfg fuel v (path ++ [.str k]) st
    walkDetachedChildren cfg fuel rest path st1

/-- Walk a detached value (navigation paths keep pointing at the positions
the subtree occupied in the tree, as in the TypeScript walk). -/
def walkDetached (cfg : Config) :
    Nat → Json → List JKey → RState → Except Err (Json × RState)
  | 0, _, _, _ => .error .fuelExhausted
  | fuel + 1, node, navpath, st =>
    match node with
    | .arr items => do
      let (itemsW, st1) ← walkDetachedList cfg fuel items navpath 0 st
      .ok (.arr itemsW, st1)
    | .obj entries => do
      let (r, same, st1) ← objectVisitorStep cfg st node navpath
      if same then
        match r with
        | .obj rEntries => do
          let (entriesW, st2) ← walkDetachedEntries cfg fuel rEntries navpath st1
          .ok (.obj entriesW, st2)
        | _ => .ok (r, st1)
      else do
        let st2 ← walkDetachedChildren cfg fuel entries navpath st1
        .ok (r, st2)
    | j => .ok (j, st)

/-- Walk the elements of a detached array. -/
def walkDetachedList (cfg : Config) :
    Nat → List Json → List JKey → Nat → RState →
    Except Err (List Json × RState)
  | 0, _, _, _, _ => .error .fuelExhausted
  | _ + 1, [], _, _, st => .ok ([], st)
  | fuel + 1, v :: rest, navpath, i, st =>
    match v with
    | .obj _ => do
      let (vW, st1) ← walkDetached cfg fuel v (navpath ++ [.idx i]) st
      let (restW, st2) ← walkDetachedList cfg fuel rest navpath (i + 1) st1
      .ok (vW :: restW, st2)
    | .arr _ => do
      let (vW, st1) ← walkDetached cfg fuel v (navpath ++ [.idx i]) st
      let (restW, st2) ← walkDetachedList cfg fuel rest navpath (i + 1) st1
      .ok (vW :: restW, st2)
    | _ => do
      let (restW, st1) ← walkDetachedList cfg fuel rest navpath (i + 1) st
      .ok (v :: restW, st1)

/-- Walk the entries of a detached object (scalar values are skipped). -/
def walkDetachedEntries (cfg : Config) :
    Nat → List (String × Json) → List JKey → RState →
    Except Err (List (String × Json) × RState)
  | 0, _, _, _ => .error .fuelExhausted
  | _ + 1, [], _, st => .ok ([], st)
  | fuel + 1, (k, v) :: rest, navpath, st =>
    match v with
    | .obj _ => do
      let (vW, st1) ← walkDetached cfg fuel v (navpath ++ [.str k]) st
      let (restW, st2) ← walkDetachedEntries cfg fuel rest navpath st1
      .ok ((k, vW) :: restW, st2)
    | .arr _ => do
      let (vW, st1) ← walkDetached cfg fuel v (navpath ++ [.str k]) st
      let (restW, st2) ← walkDetachedEntries cfg fuel rest navpath st1
      .ok ((k, vW) :: restW, st2)
    | _ => do
      let (restW, st1) ← walkDetachedEntries cfg fuel rest navpath st
      .ok ((k, v) :: restW, st1)

end

/-! ## The fixpoint driver (`resolve`) -/

/-- One traversal pass: clear `changed` and walk the whole live document. -/
def runPass (cfg : Config) (walkFuel : Nat) (st : RState) : Except Err RState :=
  walkPath cfg walkFuel [] { st with changed := false }

/-- `while (this.changed) { ... }`: rerun passes until one changes nothing. -/
def resolveLoop (cfg : Config) (walkFuel : Nat) :
    Nat → RState → Except Err RState
  | 0, _ => .error .fuelExhausted
  | passes + 1, st => do
    let st1 ← runPass cfg walkFuel st
    if st1.changed then resolveLoop cfg walkFuel passes st1 else .ok st1

/-- The value returned by `resolve` (`ApiRefResolution`). -/
structure ResolveResult where
  api : Json
  options : Options
deriving Repr

/-- `ApiRefResolver.resolve`: load the root document if it was not supplied,
return early if it is already resolved, run traversal passes to a fixpoint,
stamp the root with provenance, and strip the temporary markers. -/
def resolve (cfg : Config) (givenDoc : Option Json) (passFuel walkFuel : Nat) :
    Except Err (ResolveResult × RState) := do
  let st0 : RState := {}
  let (doc, st) ←
    match givenDoc with
    | some d => pure (d, st0)
    | none => do
      let (d, _, st) ← apiFetch cfg st0 ⟨cfg.rootUrl, ""⟩
      pure (d, st)
  if doc.hasKey "x-resolved-from" then
    return ({ api := doc, options := cfg.options }, st)
  let st := { st with apiDocument := doc, rootLive := true }
  let st ← resolveLoop cfg walkFuel passFuel st
  let tagged := tagItem st.apiDocument cfg.rootUrl (some cfg.dateTime)
  let final := cleanup tagged
  .ok ({ api := final, options := cfg.options }, { st with apiDocument := final })

/-! ## Document predicates used in the theorems -/

mutual

/-- Every reference node in the document is purely local (its `$ref` starts
with `#`). -/
def LocalOnly : Json → Bool
  | .obj entries =>
    (match entries.lookup "$ref" with
     | some (.str s) => strStartsWith s "#"
     | _ => true) && LocalOnlyEntries entries
  | .arr items => LocalOnlyList items
  | _ => true

def LocalOnlyList : List Json → Bool
  | [] => true
  | j :: rest => LocalOnly j && LocalOnlyList rest

def LocalOnlyEntries : List (String × Json) → Bool
  | [] => true
  | (_, v) :: rest => LocalOnly v && LocalOnlyEntries rest

end

mutual

/-- No node of the document carries the temporary `x__resolved__` marker. -/
def NoMarkers : Json → Bool
  | .obj entries => !(Json.obj entries).hasKey marker && NoMarkersEntries entries
  | .arr items => NoMarkersList items
  | _ => true

def NoMarkersList : List Json → Bool
  | [] => true
  | j :: rest => NoMarkers j && NoMarkersList rest

def NoMarkersEntries : List (String × Json) → Bool
  | [] => true
  | (_, v) :: rest => NoMarkers v && NoMarkersEntries rest

end

/-! ## Concrete scenario fixtures

`conflict*`: a root document whose `components.schemas.health` slot already
holds a component inlined from `s1.yaml` (tagged with its provenance and the
temporary marker) while a reference to a different `health` component in
`s2.yaml` is being processed — the two-sources conflict of the repository's
own `test/data/conflict` scenario. -/

def healthS1 : Json := .obj [("title", .str "H1"), ("type", .str "object"),
  ("x-resolved-from", .str "file:///s1.yaml#/components/schemas/health"),
  ("x__resolved__", .bool true)]

def healthS2 : Json := .obj [("title", .str "H2"), ("type", .str "object")]

def conflictDoc : Json := .obj [
  ("paths", .obj [("/h2", .obj [("get", .obj [("schema",
    .obj [("$ref", .str "file:///s2.yaml#/components/schemas/health")])])])]),
  ("components", .obj [("schemas", .obj [("health", healthS1)])])]

def conflictCfg (strat : Option Strategy) : Config :=
  { rootUrl := "file:///api.yaml", options := { conflictStrategy := strat },
    world := [("file:///s2.yaml",
      .obj [("components", .obj [("schemas", .obj [("health", healthS2)])])])],
    dateTime := "T" }

def conflictState : RState := { apiDocument := conflictDoc, rootLive := true }

def conflictRef : Json :=
  .obj [("$ref", .str "file:///s2.yaml#/components/schemas/health")]

def conflictNav : List JKey := [.str "paths", .str "/h2", .str "get", .str "schema"]

def conflictUrl : Url := ⟨"file:///s2.yaml", "#/components/schemas/health"⟩

/-- `c3*`: the navigation is at the component slot
`/components/schemas/localName` while the reference targets the differently
named component `/components/schemas/other` of `o.yaml`. -/

def otherComponent : Json := .obj [("title", .str "Other"), ("type", .str "object")]

def oDoc : Json := .obj [("components", .obj [("schemas", .obj [
  ("other", otherComponent)])])]

def c3root : Json := .obj [("components", .obj [("schemas", .obj [
  ("localName", .obj [("$ref", .str "file:///o.yaml#/components/schemas/other")])])])]

def c3cfg : Config :=
  { rootUrl := "file:///api.yaml", options := { conflictStrategy := none },
    world := [("file:///o.yaml", oDoc)], dateTime := "T" }

def c3st : RState := { apiDocument := c3root, rootLive := true }

def c3ref : Json := .obj [("$ref", .str "file:///o.yaml#/components/schemas/other")]

def c3nav : List JKey := [.str "components", .str "schemas", .str "localName"]

def c3url : Url := ⟨"file:///o.yaml", "#/components/schemas/other"⟩

/-- `c4*`: a reference node carrying the `x__resolved__` marker whose sibling
object contains a nested, unmarked external reference. -/

def c4inner : Json := .obj [("$ref", .str "file:///o.yaml#/components/schemas/other")]

def c4root : Json := .obj [("wrapper", .obj [
  ("$ref", .str "file:///o.yaml"),
  ("x__resolved__", .bool true),
  ("extra", .obj [("inner", c4inner)])])]

def c4st : RState := { apiDocument := c4root, rootLive := true }

/-- `c8*`: a reference node with a sibling `description` at a non-component
navigation position. -/

def c8ref : Json := .obj [("description", .str "X"),
  ("$ref", .str "file:///o.yaml#/components/schemas/other")]

def c8root : Json := .obj [("paths", .obj [("/t", .obj [("get", .obj [
  ("schema", c8ref)])])])]

def c8st : RState := { apiDocument := c8root, rootLive := true }

def c8nav : List JKey := [.str "paths", .str "/t", .str "get", .str "schema"]

def c8cfg : Config :=
  { rootUrl := "file:///api.yaml", options := { conflictStrategy := none },
    world := [("file:///o.yaml", oDoc)], dateTime := "T" }

def c8url : Url := ⟨"file:///o.yaml", "#/components/schemas/other"⟩

/-- `c9*`: a reference with a non-component fragment (`/paths/~1health/get`). -/

def pDoc : Json := .obj [("paths", .obj [("/health", .obj [("get", .obj [
  ("operationId", .str "apiHealth")])])])]

def c9root : Json := .obj [("paths", .obj [("/health", .obj [
  ("$ref", .str "file:///p.yaml#/paths/~1health/get")])])]

def c9cfg : Config :=
  { rootUrl := "file:///api.yaml", options := { conflictStrategy := none },
    world := [("file:///p.yaml", pDoc)], dateTime := "T" }

def c9st : RState := { apiDocument := c9root, rootLive := true }

def c9ref : Json := .obj [("$ref", .str "file:///p.yaml#/paths/~1health/get")]

def c9url : Url := ⟨"file:///p.yaml", "#/paths/~1health/get"⟩

/-- `c7es`/`c7doc`: a document containing only local `#/...` references. -/
def c7es : List (String × Json) := [
  ("paths", .obj [("/x", .obj [("get", .obj [("schema",
    .obj [("$ref", .str "#/components/schemas/s")])])])]),
  ("components", .obj [("schemas", .obj [("s", .obj [("type", .str "object")])])])]

def c7doc : Json := .obj c7es

def c7cfg : Config :=
  { rootUrl := "file:///api.yaml", options := { conflictStrategy := none },
    world := [], dateTime := "T" }

/-- `c10doc`: a document already stamped with `x-resolved-from` (and holding a
stray temporary marker that an early return must leave in place). -/
def c10doc : Json := .obj [
  ("x-resolved-from", .str "file:///earlier.yaml"),
  ("a", .obj [("x__resolved__", .bool true), ("$ref", .str "file:///o.yaml")])]

def c10cfg : Config :=
  { rootUrl := "file:///api.yaml", options := { conflictStrategy := none },
    world := [("file:///api.yaml", c10doc)], dateTime := "T" }

/-- `c5*`: a state whose memo already holds a replacement for the raw
reference string of `c5ref`. -/

def c5ref : Json := .obj [("$ref", .str "file:///q.yaml#/components/schemas/t")]

def c5st : RState :=
  { apiDocument := .obj [], rootLive := true,
    memo := [("file:///q.yaml#/components/schemas/t", "#/components/schemas/t")] }

/-- Discriminator for `Except` results (used to transport concrete
computations into case analyses). -/
def isOkB {α : Type} : Except Err α → Bool
  | .ok _ => true
  | .error _ => false

/-! # Theorems -/

/-! ## Helper lemmas about the state-passing operations -/

theorem rememberReplacementForRef_fresh (st : RState) (r v : String)
    (h : st.memo.lookup r = none) :
    rememberReplacementForRef st r v = .ok { st with memo := st.memo ++ [(r, v)] } := by
  simp [rememberReplacementForRef, h]

theorem apiFetch_ok_state (cfg : Config) (st : RState) (u : Url) (d : Json)
    (i : Option Json) (st' : RState) (h : apiFetch cfg st u = .ok (d, i, st')) :
    st'.memo = st.memo ∧ st'.apiDocument = st.apiDocument ∧
    st'.changed = st.changed ∧ st'.rootLive = st.rootLive := by
  unfold apiFetch at h
  split at h
  all_goals try split at h
  all_goals try split at h
  all_goals try split at h
  all_goals
    first
    | exact Except.noConfusion h
    | (simp only [Except.ok.injEq, Prod.mk.injEq] at h
       obtain ⟨h1, h2, h3⟩ := h
       subst h3
       exact ⟨rfl, rfl, rfl, rfl⟩)

theorem rewriteRefPathsM_state (cfg : Config) (st : RState) (u : Url) :
    (rewriteRefPathsM cfg st u).memo = st.memo ∧
    (rewriteRefPathsM cfg st u).changed = st.changed ∧
    (rewriteRefPathsM cfg st u).fetched = st.fetched ∧
    (rewriteRefPathsM cfg st u).rootLive = st.rootLive := by
  unfold rewriteRefPathsM storeDoc
  split
  · exact ⟨rfl, rfl, rfl, rfl⟩
  · split
    · exact ⟨rfl, rfl, rfl, rfl⟩
    · split
      · exact ⟨rfl, rfl, rfl, rfl⟩
      · exact ⟨rfl, rfl, rfl, rfl⟩

theorem rewriteRefFragmentsM_state (cfg : Config) (st : RState) (u : Url)
    (nav : List JKey) :
    (rewriteRefFragmentsM cfg st u nav).memo = st.memo ∧
    (rewriteRefFragmentsM cfg st u nav).changed = st.changed ∧
    (rewriteRefFragmentsM cfg st u nav).fetched = st.fetched := by
  unfold rewriteRefFragmentsM storeDoc
  split
  · exact ⟨rfl, rfl, rfl⟩
  · split
    · exact ⟨rfl, rfl, rfl⟩
    · split
      · exact ⟨rfl, rfl, rfl⟩
      · exact ⟨rfl, rfl, rfl⟩

/-- C9: after `processOtherReplacement` resolves a fresh reference with a
non-empty, non-component fragment, the memo entry recorded for the reference
string is the source URL's own fragment (`normalizedRefUrl.hash`), not the
local fragment of the navigation position (the function does not even receive
the navigation). -/
theorem C9_other_memoizes_source_fragment (cfg : Config) (st : RState)
    (url : Url) (refObject : Json) (reference : String) (r : Json) (same : Bool)
    (st' : RState)
    (hhash : url.hash ≠ "")
    (hcomp : isComponentFragment url.hash = false)
    (hfresh : replacementForRef st reference = none)
    (hrun : processOtherReplacement cfg st url refObject reference =
      .ok (r, same, st')) :
    st'.memo = st.memo ++ [(reference, url.hash)] ∧ same = false := by
  unfold processOtherReplacement at hrun
  simp only [hhash, hcomp, reduceIte, Bool.false_eq_true, if_false, bind,
    Except.bind, pure, Except.pure, hfresh] at hrun
  cases happ : apiFetch cfg st url with
  | error e => rw [happ] at hrun; exact Except.noConfusion hrun
  | ok v =>
    obtain ⟨d, i, st1⟩ := v
    rw [happ] at hrun
    dsimp only at hrun
    obtain ⟨hm1, _, _, _⟩ := apiFetch_ok_state cfg st url d i st1 happ
    obtain ⟨hm2, _, _, _⟩ :=
      rewriteRefPathsM_state cfg st1 (urlNonFragment url)
    cases hit : (cachedDoc cfg (rewriteRefPathsM cfg st1 (urlNonFragment url))
        (urlNonFragment url).base).bind
        (fun dd => itemAtFragment dd url.hash) with
    | none => rw [hit] at hrun; exact Except.noConfusion hrun
    | some item =>
      rw [hit] at hrun
      rw [rememberReplacementForRef_fresh _ _ _ (by
        rw [hm2, hm1]; exact hfresh)] at hrun
      simp only [Except.ok.injEq, Prod.mk.injEq] at hrun
      obtain ⟨hr, hsame, hst⟩ := hrun
      subst hst
      exact ⟨by rw [hm2, hm1], hsame.symm⟩

/-- A failing `rememberReplacementForRef` implies the key was present. -/
theorem rememberReplacementForRef_error (st : RState) (r v : String) (e : Err)
    (h : rememberReplacementForRef st r v = .error e) :
    (st.memo.lookup r).isSome = true := by
  unfold rememberReplacementForRef at h
  split at h
  · assumption
  · exact Except.noConfusion h

/-- `api` never fails with the double-registration assertion. -/
theorem apiFetch_no_doubleRegister (cfg : Config) (st : RState) (u : Url)
    (s : String) : apiFetch cfg st u ≠ .error (.doubleRegister s) := by
  unfold apiFetch
  intro h
  split at h
  all_goals try split at h
  all_goals try split at h
  all_goals try split at h
  all_goals first
    | exact Except.noConfusion h
    | exact Err.noConfusion (Except.error.inj h)

/-- `checkComponentConflict` never fails with the double-registration
assertion. -/
theorem checkComponentConflict_no_doubleRegister (cfg : Config) (st : RState)
    (refObject : Json) (componentKeys : List JKey) (href : String) (s : String) :
    checkComponentConflict cfg st refObject componentKeys href ≠
      .error (.doubleRegister s) := by
  unfold checkComponentConflict
  intro h
  dsimp only at h
  split at h
  all_goals try split at h
  all_goals try split at h
  all_goals try split at h
  all_goals try split at h
  all_goals try split at h
  all_goals first
    | exact Except.noConfusion h
    | exact Err.noConfusion (Except.error.inj h)

/-- `processOtherReplacement` never fails with the double-registration
assertion: its registration is guarded by its own memo miss. -/
theorem processOtherReplacement_no_doubleRegister (cfg : Config) (st : RState)
    (url : Url) (refObject : Json) (reference : String) (s : String) :
    processOtherReplacement cfg st url refObject reference ≠
      .error (.doubleRegister s) := by
  unfold processOtherReplacement
  intro h
  simp only [bind, Except.bind, pure, Except.pure] at h
  split at h
  · exact Err.noConfusion (Except.error.inj h)
  split at h
  · exact Err.noConfusion (Except.error.inj h)
  split at h
  · exact Except.noConfusion h
  rename_i hfresh
  cases happ : apiFetch cfg st url with
  | error e =>
    rw [happ] at h
    exact apiFetch_no_doubleRegister cfg st url s (happ.trans (congrArg _ (Except.error.inj h)))
  | ok v =>
    obtain ⟨d, i, st1⟩ := v
    rw [happ] at h
    dsimp only at h
    split at h
    · split at h
      · rename_i err heq
        obtain ⟨hm1, _, _, _⟩ := apiFetch_ok_state cfg st url d i st1 happ
        obtain ⟨hm2, _, _, _⟩ := rewriteRefPathsM_state cfg st1 (urlNonFragment url)
        have hx := rememberReplacementForRef_error _ _ _ _ heq
        rw [hm2, hm1] at hx
        have hf : List.lookup reference st.memo = none := hfresh
        rw [hf] at hx
        exact Bool.noConfusion hx
      · exact Except.noConfusion h
    · exact Err.noConfusion (Except.error.inj h)

/-- `processFullReplacement` never fails with the double-registration
assertion. -/
theorem processFullReplacement_no_doubleRegister (cfg : Config) (st : RState)
    (url : Url) (refObject : Json) (nav : List JKey) (s : String) :
    processFullReplacement cfg st url refObject nav ≠
      .error (.doubleRegister s) := by
  unfold processFullReplacement
  intro h
  simp only [bind, Except.bind, pure, Except.pure] at h
  split at h
  · exact Err.noConfusion (Except.error.inj h)
  split at h
  · exact Except.noConfusion h
  rename_i hfresh
  cases happ : apiFetch cfg st url with
  | error e =>
    rw [happ] at h
    exact apiFetch_no_doubleRegister cfg st url s
      (happ.trans (congrArg _ (Except.error.inj h)))
  | ok v =>
    obtain ⟨d, i, st1⟩ := v
    rw [happ] at h
    dsimp only at h
    split at h
    · rename_i err heq
      obtain ⟨hm1, _, _, _⟩ := apiFetch_ok_state cfg st url d i st1 happ
      have hx := rememberReplacementForRef_error _ _ _ _ heq
      rw [hm1] at hx
      have hf : List.lookup url.href st.memo = none := hfresh
      rw [hf] at hx
      exact Bool.noConfusion hx
    · exact Except.noConfusion h

/-- `processComponentReplacement` never fails with the double-registration
assertion. -/
theorem processComponentReplacement_no_doubleRegister (cfg : Config)
    (st : RState) (url : Url) (refObject : Json) (nav : List JKey) (s : String) :
    processComponentReplacement cfg st url refObject nav ≠
      .error (.doubleRegister s) := by
  unfold processComponentReplacement
  intro h
  simp only [bind, Except.bind, pure, Except.pure] at h
  split at h
  · exact Err.noConfusion (Except.error.inj h)
  split at h
  · exact Err.noConfusion (Except.error.inj h)
  split at h
  · exact Except.noConfusion h
  rename_i hfresh
  cases happ : apiFetch cfg st url with
  | error e =>
    rw [happ] at h
    exact apiFetch_no_doubleRegister cfg st url s
      (happ.trans (congrArg _ (Except.error.inj h)))
  | ok v =>
    obtain ⟨d, i, st1⟩ := v
    rw [happ] at h
    dsimp only at h
    split at h
    · split at h
      · rename_i err heq
        obtain ⟨hm1, _, _, _⟩ := apiFetch_ok_state cfg st url d i st1 happ
        obtain ⟨hm2, _, _, _⟩ := rewriteRefPathsM_state cfg st1 (urlNonFragment url)
        have hx := rememberReplacementForRef_error _ _ _ _ heq
        rw [hm2, hm1] at hx
        have hf : List.lookup url.href st.memo = none := hfresh
        rw [hf] at hx
        exact Bool.noConfusion hx
      · split at h
        · rename_i e heq2
          exact checkComponentConflict_no_doubleRegister _ _ _ _ _ s
            (heq2.trans (congrArg _ (Except.error.inj h)))
        · split at h
          all_goals try split at h
          all_goals exact Except.noConfusion h
    · exact Err.noConfusion (Except.error.inj h)

/-! ## Lemmas about reading and writing document paths -/

theorem objSetS_lookup_self {α : Type} (es : List (String × α)) (k : String)
    (v : α) (h : es.lookup k = some v) : objSetS es k v = es := by
  induction es with
  | nil => simp [List.lookup] at h
  | cons e rest ih =>
    obtain ⟨a, b⟩ := e
    by_cases hk : a = k
    · subst hk
      simp [List.lookup] at h
      simp [objSetS, h]
    · have hba : (k == a) = false := by
        simp [hk]
        exact fun hh => hk hh.symm
      simp [List.lookup, hba] at h
      simp [objSetS, hk, ih h]

theorem objSetS_lookup_ne {α : Type} (es : List (String × α)) (k k' : String)
    (v : α) (h : k' ≠ k) : (objSetS es k v).lookup k' = es.lookup k' := by
  induction es with
  | nil =>
    have : (k' == k) = false := by simp [h]
    simp [objSetS, List.lookup, this]
  | cons e rest ih =>
    obtain ⟨a, b⟩ := e
    by_cases hk : a = k
    · subst hk
      have : (k' == a) = false := by simp [h]
      simp [objSetS, List.lookup, this]
    · simp only [objSetS, if_neg hk, List.lookup]
      cases hba : k' == a
      · simpa [List.lookup, hba] using ih
      · simp [List.lookup, hba]

theorem List.set_self_of_get? {α : Type} (l : List α) (n : Nat) (a : α)
    (h : l.get? n = some a) : l.set n a = l := by
  induction l generalizing n with
  | nil => simp at h
  | cons x rest ih =>
    cases n with
    | zero =>
      simp only [List.get?] at h
      cases h
      rfl
    | succ m =>
      simp only [List.get?] at h
      simp [List.set, ih m h]

theorem putKey_self (j : Json) (k : JKey) (v : Json)
    (h : j.getKey k = some v) : j.putKey k v = j := by
  cases j with
  | obj entries =>
    simp only [Json.getKey] at h
    simp only [Json.putKey, Json.setKey, objSet, objSetS_lookup_self _ _ _ h]
  | arr items =>
    cases k with
    | str s => simp [Json.getKey] at h
    | idx n =>
      simp only [Json.getKey] at h
      simp only [Json.putKey, List.set_self_of_get? _ _ _ h]
  | null => simp [Json.getKey] at h
  | bool b => simp [Json.getKey] at h
  | num n => simp [Json.getKey] at h
  | str s => simp [Json.getKey] at h

theorem setAt_self (j : Json) (p : List JKey) (v : Json)
    (h : getAt j p = some v) : setAt j p v = j := by
  induction p generalizing j with
  | nil => simp [getAt] at h; simp [setAt, h]
  | cons k rest ih =>
    simp only [getAt] at h
    cases hk : j.getKey k with
    | none => rw [hk] at h; exact absurd h (by simp)
    | some child =>
      rw [hk] at h
      simp only [setAt, hk]
      rw [ih child h, putKey_self j k child hk]

/-- `setDoc` with the value already present is the identity. -/
theorem setDoc_self (st : RState) (p : List JKey) (v : Json)
    (h : getAt st.apiDocument p = some v) : setDoc st p v = st := by
  simp [setDoc, setAt_self _ _ _ h]

/-! ## Local-reference and marker preservation lemmas (toward C7) -/

theorem bool_and_split {a b : Bool} (h : (a && b) = true) :
    a = true ∧ b = true := by
  simp only [Bool.and_eq_true] at h
  exact h

theorem lookup_none_of_isSome_false {α : Type} {o : Option α}
    (h : o.isSome = false) : o = none := by
  cases o with
  | none => rfl
  | some v => simp [Option.isSome] at h

theorem LocalOnlyEntries_lookup :
    ∀ (es : List (String × Json)) (k : String) (v : Json),
    LocalOnlyEntries es = true → es.lookup k = some v → LocalOnly v = true
  | [], _, _, _, h => by simp [List.lookup] at h
  | (a, b) :: rest, k, v, hE, h => by
    have hab : LocalOnly b = true ∧ LocalOnlyEntries rest = true := by
      simpa only [LocalOnlyEntries, Bool.and_eq_true] using hE
    cases hk : k == a with
    | false =>
      have h' : rest.lookup k = some v := by
        simpa only [List.lookup, hk] using h
      exact LocalOnlyEntries_lookup rest k v hab.2 h'
    | true =>
      have hb : b = v := by
        simpa only [List.lookup, hk, Option.some.injEq] using h
      rw [← hb]
      exact hab.1

theorem LocalOnlyList_get :
    ∀ (l : List Json) (n : Nat) (v : Json),
    LocalOnlyList l = true → l.get? n = some v → LocalOnly v = true
  | [], _, _, _, h => by simp [List.get?] at h
  | x :: rest, n, v, hL, h => by
    have hab : LocalOnly x = true ∧ LocalOnlyList rest = true := by
      simpa only [LocalOnlyList, Bool.and_eq_true] using hL
    cases n with
    | zero =>
      simp only [List.get?] at h
      cases h
      exact hab.1
    | succ m =>
      simp only [List.get?] at h
      exact LocalOnlyList_get rest m v hab.2 h

theorem LocalOnly_getKey (j : Json) (k : JKey) (v : Json)
    (hj : LocalOnly j = true) (h : j.getKey k = some v) : LocalOnly v = true := by
  cases j with
  | obj entries =>
    simp only [Json.getKey] at h
    have hE : LocalOnlyEntries entries = true :=
      (bool_and_split (by simpa only [LocalOnly] using hj)).2
    exact LocalOnlyEntries_lookup entries _ v hE h
  | arr items =>
    cases k with
    | str sk => simp [Json.getKey] at h
    | idx n =>
      simp only [Json.getKey] at h
      have hL : LocalOnlyList items = true := by simpa only [LocalOnly] using hj
      exact LocalOnlyList_get items n v hL h
  | null => simp [Json.getKey] at h
  | bool b => simp [Json.getKey] at h
  | num n => simp [Json.getKey] at h
  | str sv => simp [Json.getKey] at h

theorem LocalOnly_getAt :
    ∀ (p : List JKey) (j v : Json),
    LocalOnly j = true → getAt j p = some v → LocalOnly v = true
  | [], j, v, hj, h => by
    simp only [getAt, Option.some.injEq] at h
    rw [← h]; exact hj
  | k :: rest, j, v, hj, h => by
    simp only [getAt] at h
    cases hk : j.getKey k with
    | none => rw [hk] at h; exact Option.noConfusion h
    | some child =>
      rw [hk] at h
      exact LocalOnly_getAt rest child v (LocalOnly_getKey j k child hj hk) h

/-- The visitor leaves every node of a locally-referencing document exactly in
place, with the state untouched (no memo change, no fetch, no `changed`). -/
theorem objectVisitorStep_local (cfg : Config) (st : RState) (node : Json)
    (nav : List JKey) (h : LocalOnly node = true) :
    objectVisitorStep cfg st node nav = .ok (node, true, st) := by
  unfold objectVisitorStep
  cases hr : isRefB node with
  | false => simp only [Bool.false_eq_true, reduceIte]
  | true =>
    simp only [reduceIte]
    cases hres : isResolvedB node with
    | true => simp only [reduceIte]
    | false =>
      simp only [Bool.false_eq_true, reduceIte]
      cases node with
      | obj entries =>
        cases hlk : entries.lookup "$ref" with
        | none =>
          unfold refResolvingVisitor
          simp only [Json.find?, hlk]
        | some w =>
          cases w with
          | str r =>
            have h1 : strStartsWith r "#" = true := by
              have hh := (bool_and_split (by simpa only [LocalOnly] using h)).1
              rw [hlk] at hh
              simpa using hh
            unfold refResolvingVisitor
            simp only [Json.find?, hlk, h1, reduceIte]
          | null =>
            unfold refResolvingVisitor
            simp only [Json.find?, hlk]
          | bool b =>
            unfold refResolvingVisitor
            simp only [Json.find?, hlk]
          | num n =>
            unfold refResolvingVisitor
            simp only [Json.find?, hlk]
          | arr items =>
            unfold refResolvingVisitor
            simp only [Json.find?, hlk]
          | obj es2 =>
            unfold refResolvingVisitor
            simp only [Json.find?, hlk]
      | null => simp [isRefB, Json.find?] at hr
      | bool b => simp [isRefB, Json.find?] at hr
      | num n => simp [isRefB, Json.find?] at hr
      | str sv => simp [isRefB, Json.find?] at hr
      | arr items => simp [isRefB, Json.find?] at hr

/-- A traversal over a document with only local references either changes
nothing at all or runs out of fuel. -/
theorem walk_local (cfg : Config) : ∀ fuel : Nat,
    (∀ path st, LocalOnly st.apiDocument = true →
      walkPath cfg fuel path st = .ok st ∨
      walkPath cfg fuel path st = .error .fuelExhausted) ∧
    (∀ path ks st, LocalOnly st.apiDocument = true →
      walkKeys cfg fuel path ks st = .ok st ∨
      walkKeys cfg fuel path ks st = .error .fuelExhausted) ∧
    (∀ path is st, LocalOnly st.apiDocument = true →
      walkIdxs cfg fuel path is st = .ok st ∨
      walkIdxs cfg fuel path is st = .error .fuelExhausted) := by
  intro fuel
  induction fuel with
  | zero =>
    exact ⟨fun _ _ _ => Or.inr rfl, fun _ _ _ _ => Or.inr rfl,
           fun _ _ _ _ => Or.inr rfl⟩
  | succ fuel ih =>
    obtain ⟨ihP, ihK, ihI⟩ := ih
    refine ⟨?_, ?_, ?_⟩
    · intro path st hL
      cases hG : getAt st.apiDocument path with
      | none => left; simp only [walkPath, hG]
      | some node =>
        cases node with
        | arr items =>
          cases ihI path (List.range items.length) st hL with
          | inl h => left; simp only [walkPath, hG]; exact h
          | inr h => right; simp only [walkPath, hG]; exact h
        | obj entries =>
          have hnode : LocalOnly (.obj entries) = true :=
            LocalOnly_getAt path st.apiDocument _ hL hG
          have hvis := objectVisitorStep_local cfg st (.obj entries) path hnode
          have hset : setDoc st path (.obj entries) = st := setDoc_self st path _ hG
          cases ihK path (entries.map (fun e => e.1)) st hL with
          | inl h =>
            left
            simp only [walkPath, hG, hvis, bind, Except.bind, reduceIte, hset]
            exact h
          | inr h =>
            right
            simp only [walkPath, hG, hvis, bind, Except.bind, reduceIte, hset]
            exact h
        | null => left; simp only [walkPath, hG]
        | bool b => left; simp only [walkPath, hG]
        | num n => left; simp only [walkPath, hG]
        | str sv => left; simp only [walkPath, hG]
    · intro path ks st hL
      cases ks with
      | nil => left; simp only [walkKeys]
      | cons k rest =>
        cases ihP (path ++ [.str k]) st hL with
        | inl h1 =>
          cases ihK path rest st hL with
          | inl h2 =>
            left
            simp only [walkKeys, bind, Except.bind, h1]
            exact h2
          | inr h2 =>
            right
            simp only [walkKeys, bind, Except.bind, h1]
            exact h2
        | inr h1 =>
          right
          simp only [walkKeys, bind, Except.bind, h1]
    · intro path is st hL
      cases is with
      | nil => left; simp only [walkIdxs]
      | cons i rest =>
        cases ihP (path ++ [.idx i]) st hL with
        | inl h1 =>
          cases ihI path rest st hL with
          | inl h2 =>
            left
            simp only [walkIdxs, bind, Except.bind, h1]
            exact h2
          | inr h2 =>
            right
            simp only [walkIdxs, bind, Except.bind, h1]
            exact h2
        | inr h1 =>
          right
          simp only [walkIdxs, bind, Except.bind, h1]

mutual

theorem cleanup_id : (j : Json) → NoMarkers j = true → cleanup j = j
  | .null, _ => rfl
  | .bool _, _ => rfl
  | .num _, _ => rfl
  | .str _, _ => rfl
  | .arr items, h => by
    have hl : NoMarkersList items = true := by simpa only [NoMarkers] using h
    simp only [cleanup, cleanupList_id items hl]
  | .obj entries, h => by
    have hp := bool_and_split (by simpa only [NoMarkers] using h)
    have h1 : entries.lookup marker = none := by
      apply lookup_none_of_isSome_false
      have := hp.1
      simpa only [Json.hasKey, Json.find?, Bool.not_eq_true'] using this
    simp only [cleanup, cleanupEntries_id entries h1 hp.2]

theorem cleanupList_id : (l : List Json) → NoMarkersList l = true → cleanupList l = l
  | [], _ => rfl
  | j :: rest, h => by
    have hab : NoMarkers j = true ∧ NoMarkersList rest = true := by
      simpa only [NoMarkersList, Bool.and_eq_true] using h
    simp only [cleanupList, cleanup_id j hab.1, cleanupList_id rest hab.2]

theorem cleanupEntries_id : (E : List (String × Json)) →
    E.lookup marker = none → NoMarkersEntries E = true → cleanupEntries E = E
  | [], _, _ => rfl
  | (k, v) :: rest, h1, h2 => by
    have hk : (marker == k) = false := by
      cases hmk : marker == k with
      | false => rfl
      | true =>
        exfalso
        simp only [List.lookup, hmk] at h1
        exact Option.noConfusion h1
    have hkne : k ≠ marker := by
      intro he
      rw [he] at hk
      simp at hk
    have h1' : rest.lookup marker = none := by
      simpa only [List.lookup, hk] using h1
    have hab : NoMarkers v = true ∧ NoMarkersEntries rest = true := by
      simpa only [NoMarkersEntries, Bool.and_eq_true] using h2
    simp only [cleanupEntries, if_neg hkne, cleanup_id v hab.1,
      cleanupEntries_id rest h1' hab.2]

end

theorem NoMarkersEntries_objSetS (E : List (String × Json)) (k : String)
    (v : Json) (hE : NoMarkersEntries E = true) (hv : NoMarkers v = true) :
    NoMarkersEntries (objSetS E k v) = true := by
  induction E with
  | nil => simp [objSetS, NoMarkersEntries, hv]
  | cons e rest ih =>
    obtain ⟨a, b⟩ := e
    have hab : NoMarkers b = true ∧ NoMarkersEntries rest = true := by
      simpa only [NoMarkersEntries, Bool.and_eq_true] using hE
    by_cases hk : a = k
    · simp [objSetS, hk, NoMarkersEntries, hv, hab.2]
    · simp [objSetS, hk, NoMarkersEntries, hab.1, ih hab.2]

theorem cleanupEntries_objSetS_marker (E : List (String × Json)) (v : Json)
    (h : E.lookup marker = none) :
    cleanupEntries (objSetS E marker v) = cleanupEntries E := by
  induction E with
  | nil => simp [objSetS, cleanupEntries]
  | cons e rest ih =>
    obtain ⟨a, b⟩ := e
    have hk : (marker == a) = false := by
      cases hmk : marker == a with
      | false => rfl
      | true =>
        exfalso
        simp only [List.lookup, hmk] at h
        exact Option.noConfusion h
    have hane : a ≠ marker := by
      intro he
      rw [he] at hk
      simp at hk
    have h' : rest.lookup marker = none := by
      simpa only [List.lookup, hk] using h
    simp only [objSetS, if_neg hane, cleanupEntries, if_neg hane, ih h']

/-- Tagging a marker-free object with provenance and the temporary marker and
then cleaning up yields exactly the two provenance keys added. -/
theorem cleanup_tagItem (es : List (String × Json)) (href dt : String)
    (h : NoMarkers (.obj es) = true) :
    cleanup (tagItem (.obj es) href (some dt)) =
      ((Json.obj es).setKey "x-resolved-from" (.str href)).setKey
        "x-resolved-at" (.str dt) := by
  have hp := bool_and_split (by simpa only [NoMarkers] using h)
  have h1 : es.lookup marker = none := by
    apply lookup_none_of_isSome_false
    have := hp.1
    simpa only [Json.hasKey, Json.find?, Bool.not_eq_true'] using this
  have hlk1 : (objSetS es "x-resolved-from" (Json.str href)).lookup marker = none := by
    rw [objSetS_lookup_ne _ _ _ _ (by decide)]
    exact h1
  have hlk2 : (objSetS (objSetS es "x-resolved-from" (Json.str href))
      "x-resolved-at" (Json.str dt)).lookup marker = none := by
    rw [objSetS_lookup_ne _ _ _ _ (by decide)]
    exact hlk1
  have hm1 : NoMarkersEntries (objSetS es "x-resolved-from" (Json.str href)) = true :=
    NoMarkersEntries_objSetS _ _ _ hp.2 rfl
  have hm2 : NoMarkersEntries (objSetS (objSetS es "x-resolved-from"
      (Json.str href)) "x-resolved-at" (Json.str dt)) = true :=
    NoMarkersEntries_objSetS _ _ _ hm1 rfl
  simp only [tagItem, Json.setKey, objSet, cleanup]
  rw [cleanupEntries_objSetS_marker _ _ hlk2]
  rw [cleanupEntries_id _ hlk2 hm2]

/-- C7: a reference node whose `$ref` starts with `#` is returned by the
resolving visitor completely untouched, with the resolver state — including
the fetch log — unchanged (no I/O); consequently `resolve` on a document
containing only local `#/...` references (and no stale markers or prior
provenance) returns the document equal to the input except for the two added
root provenance keys, with an untouched state apart from the stored document
(a fuel-exhaustion error is the model's artifact for an underestimated walk
budget, never a different answer). -/
theorem C7_local_refs_untouched_resolve_adds_only_provenance (cfg : Config)
    (es : List (String × Json)) (pf wf : Nat)
    (hl : LocalOnly (.obj es) = true)
    (hm : NoMarkers (.obj es) = true)
    (hres : (Json.obj es).hasKey "x-resolved-from" = false) :
    (∀ (st : RState) (ro : Json) (r : String) (nav : List JKey),
        ro.find? "$ref" = some (.str r) → strStartsWith r "#" = true →
        refResolvingVisitor cfg st ro nav = .ok (ro, true, st)) ∧
    (resolve cfg (some (.obj es)) (pf + 1) wf =
        .ok ({ api := ((Json.obj es).setKey "x-resolved-from"
                  (.str cfg.rootUrl)).setKey "x-resolved-at" (.str cfg.dateTime),
               options := cfg.options },
             { apiDocument := ((Json.obj es).setKey "x-resolved-from"
                  (.str cfg.rootUrl)).setKey "x-resolved-at" (.str cfg.dateTime),
               rootLive := true }) ∨
      resolve cfg (some (.obj es)) (pf + 1) wf = .error .fuelExhausted) := by
  constructor
  · intro st ro r nav hfind hstart
    unfold refResolvingVisitor
    simp only [hfind, hstart, reduceIte]
  · have hwp := (walk_local cfg wf).1 []
      (⟨.obj es, [], [], [], [], false, [], true⟩ : RState) hl
    cases hwp with
    | inl hok =>
      left
      unfold resolve resolveLoop runPass
      simp only [bind, Except.bind, pure, Except.pure, hres, Bool.false_eq_true,
        reduceIte]
      rw [hok]
      simp only [Bool.false_eq_true, reduceIte]
      rw [cleanup_tagItem es cfg.rootUrl cfg.dateTime hm]
    | inr herr =>
      right
      unfold resolve resolveLoop runPass
      simp only [bind, Except.bind, pure, Except.pure, hres, Bool.false_eq_true,
        reduceIte]
      rw [herr]

/-- Witness for C7: the purely-local fixture document resolves to itself plus
the two provenance keys, with nothing fetched. -/
theorem C7_witness :
    resolve c7cfg (some (.obj c7es)) 2 20 =
      .ok ({ api := ((Json.obj c7es).setKey "x-resolved-from"
                (.str "file:///api.yaml")).setKey "x-resolved-at" (.str "T"),
             options := c7cfg.options },
           { apiDocument := ((Json.obj c7es).setKey "x-resolved-from"
                (.str "file:///api.yaml")).setKey "x-resolved-at" (.str "T"),
             rootLive := true }) ∧
    (resolve c7cfg (some (.obj c7es)) 2 20).map (fun x => x.2.fetched) =
      .ok [] := by
  have h := (C7_local_refs_untouched_resolve_adds_only_provenance c7cfg c7es
    1 20 rfl rfl rfl).2
  cases h with
  | inl h =>
    constructor
    · exact h
    · rw [h]
      rfl
  | inr h =>
    have hok : isOkB (resolve c7cfg (some (.obj c7es)) 2 20) = true := rfl
    rw [h] at hok
    exact Bool.noConfusion hok

/-- C4 (amended): when the node at `path` is a reference object carrying the
temporary marker, a traversal step performs no visitor work on the node
itself — no state change, no `$ref` processing — but still walks all of the
node's children (the claim's assertion that descendants are not visited is
what the counterexample refutes; this equation is the actual behavior). -/
theorem C4_amended_marked_node_skips_visitor_but_walks_children
    (cfg : Config) (fuel : Nat) (path : List JKey) (st : RState)
    (entries : List (String × Json))
    (hnode : getAt st.apiDocument path = some (.obj entries))
    (href : isRefB (.obj entries) = true)
    (hmark : isResolvedB (.obj entries) = true) :
    walkPath cfg (fuel + 1) path st =
      walkKeys cfg fuel path (entries.map (fun e => e.1)) st := by
  unfold walkPath
  rw [hnode]
  dsimp only
  unfold objectVisitorStep
  rw [href, hmark]
  simp only [reduceIte, bind, Except.bind]
  rw [setDoc_self st path (.obj entries) hnode]

/-- Witness for the amended C4 at the concrete `c4*` scenario: the step on the
marked `wrapper` node is exactly a walk of its three children. -/
theorem C4_amended_witness :
    walkPath c3cfg 16 [.str "wrapper"] c4st =
      walkKeys c3cfg 15 [.str "wrapper"]
        ["$ref", "x__resolved__", "extra"] c4st :=
  C4_amended_marked_node_skips_visitor_but_walks_children c3cfg 15
    [.str "wrapper"] c4st
    [("$ref", .str "file:///o.yaml"), ("x__resolved__", .bool true),
     ("extra", .obj [("inner", c4inner)])]
    rfl rfl rfl

/-- C3 (amended): for a fresh component reference, the in-place branch of
`processComponentReplacement` is taken exactly when the navigation is at any
`/components/<section>/<name>` slot (`isAtComponent`, which checks only the
path shape, not name identity or absence of siblings); only at a
non-component navigation is the node kept in place with its `$ref` rewritten
to a local fragment. -/
theorem C3_amended_branch_is_isAtComponent (cfg : Config) (st : RState)
    (url : Url) (refObject : Json) (nav : List JKey) (r : Json) (same : Bool)
    (st' : RState)
    (hfresh : replacementForRef st url.href = none)
    (hrun : processComponentReplacement cfg st url refObject nav =
      .ok (r, same, st')) :
    (same = false ↔ isAtComponent nav = true) ∧
    (isAtComponent nav = false →
      ∃ ck, r = refObject.setKey "$ref" (.str (navAsFragment ck))) := by
  unfold processComponentReplacement at hrun
  simp only [bind, Except.bind, pure, Except.pure] at hrun
  split at hrun
  · exact Except.noConfusion hrun
  split at hrun
  · exact Except.noConfusion hrun
  split at hrun
  · rename_i seen hseen
    rw [hfresh] at hseen
    exact Option.noConfusion hseen
  cases happ : apiFetch cfg st url with
  | error e => rw [happ] at hrun; exact Except.noConfusion hrun
  | ok v =>
    obtain ⟨d, i, st1⟩ := v
    rw [happ] at hrun
    dsimp only at hrun
    split at hrun
    · split at hrun
      · exact Except.noConfusion hrun
      · split at hrun
        · exact Except.noConfusion hrun
        · split at hrun
          · rename_i hat
            split at hrun
            all_goals
              (simp only [Except.ok.injEq, Prod.mk.injEq] at hrun
               obtain ⟨hr, hsame, hst⟩ := hrun
               constructor
               · rw [← hsame]; simp [hat]
               · intro hf; rw [hat] at hf; exact Bool.noConfusion hf)
          · rename_i hat
            have hnat : isAtComponent nav = false := by
              cases hval : isAtComponent nav
              · rfl
              · exact absurd hval hat
            simp only [Except.ok.injEq, Prod.mk.injEq] at hrun
            obtain ⟨hr, hsame, hst⟩ := hrun
            constructor
            · rw [← hsame]; simp [hnat]
            · intro _; exact ⟨_, hr.symm⟩
    · exact Except.noConfusion hrun

/-- Witness for the amended C3 at the concrete `c3*` scenario: the navigation
`/components/schemas/localName` is at a component slot, and the fresh run
indeed takes the in-place branch (`samePlace = false`). -/
theorem C3_amended_witness :
    isAtComponent c3nav = true ∧
    (processComponentReplacement c3cfg c3st c3url c3ref c3nav).map
      (fun x => x.2.1) = .ok false := by
  refine ⟨rfl, ?_⟩
  have hok : isOkB (processComponentReplacement c3cfg c3st c3url c3ref c3nav)
      = true := by rfl
  cases hrun : processComponentReplacement c3cfg c3st c3url c3ref c3nav with
  | error e => rw [hrun] at hok; exact Bool.noConfusion hok
  | ok v =>
    obtain ⟨r, same, st'⟩ := v
    have h := (C3_amended_branch_is_isAtComponent c3cfg c3st c3url c3ref c3nav
      r same st' rfl hrun).1
    simp [Except.map, h.mpr rfl]

/-- Setting one key leaves every other key's value unchanged. -/
theorem Json.find?_setKey_ne (j : Json) (k k' : String) (v : Json)
    (h : k' ≠ k) : (j.setKey k v).find? k' = j.find? k' := by
  cases j with
  | obj entries =>
    simp only [Json.setKey, Json.find?, objSet, objSetS_lookup_ne entries k k' v h]
  | null => rfl
  | bool b => rfl
  | num n => rfl
  | str sx => rfl
  | arr items => rfl

/-- `checkComponentConflict` at an empty (post-creation) landing slot: no
conflict handling at all, the keys and names are returned unchanged, and the
reference node is never consulted. -/
theorem checkComponentConflict_of_empty (cfg : Config) (st : RState)
    (ro : Json) (sec name href : String)
    (hslot : getAt (ensureSection st.apiDocument sec)
      [.str "components", .str sec, .str name] = none) :
    checkComponentConflict cfg st ro
        [.str "components", .str sec, .str name] href =
      .ok ({ st with apiDocument := ensureSection st.apiDocument sec },
           [.str "components", .str sec, .str name], ⟨sec, name⟩) := by
  unfold checkComponentConflict
  simp only [ne_eq, not_true_eq_false, reduceIte, JKey.toStr]
  rw [hslot]

/-- C8: at a non-component navigation with an unoccupied landing slot, the
component inliner returns the very reference node with only its `$ref`
rewritten to the local fragment (`samePlace = true`), and the state change —
including the component inserted at `/components/<sec>/<name>` — is an
expression in the fetched document alone (`tagItem item url.href none`),
entirely independent of the reference node's sibling properties.  Together
with `Json.find?_setKey_ne`, every sibling key of the node keeps its value at
the call site. -/
theorem C8_call_site_keeps_siblings_component_gets_none (cfg : Config)
    (st : RState) (url : Url) (refObject : Json) (nav : List JKey)
    (sec name : String) (d : Json) (i : Option Json) (st1 : RState)
    (item : Json)
    (hnav : isAtComponent nav = false)
    (hfresh : replacementForRef st url.href = none)
    (hhash : url.hash ≠ "")
    (hcomp : isComponentFragment url.hash = true)
    (hkeys : asKeys url.hash = [.str "components", .str sec, .str name])
    (happ : apiFetch cfg st url = .ok (d, i, st1))
    (hitem : (cachedDoc cfg (rewriteRefPathsM cfg st1 (urlNonFragment url))
        (urlNonFragment url).base).bind
        (fun dd => itemAtFragment dd url.hash) = some item)
    (hslot : getAt
      (ensureSection
        (rewriteRefPathsM cfg st1 (urlNonFragment url)).apiDocument sec)
      [.str "components", .str sec, .str name] = none) :
    processComponentReplacement cfg st url refObject nav =
      .ok (refObject.setKey "$ref"
             (.str (navAsFragment [.str "components", .str sec, .str name])),
           true,
           setDoc
             { rewriteRefPathsM cfg st1 (urlNonFragment url) with
               memo := (rewriteRefPathsM cfg st1 (urlNonFragment url)).memo ++
                 [(url.href, navAsFragment nav)],
               apiDocument := ensureSection
                 (rewriteRefPathsM cfg st1 (urlNonFragment url)).apiDocument sec }
             [.str "components", .str sec, .str name]
             (tagItem item url.href none)) ∧
    (∀ k, k ≠ "$ref" →
      (refObject.setKey "$ref"
        (.str (navAsFragment [.str "components", .str sec, .str name]))).find? k =
      refObject.find? k) := by
  constructor
  · unfold processComponentReplacement
    simp only [bind, Except.bind, pure, Except.pure, hhash, hcomp, reduceIte]
    have hf : replacementForRef st url.href = none := hfresh
    rw [hf, happ]
    dsimp only
    rw [hitem]
    obtain ⟨hm1, _, _, _⟩ := apiFetch_ok_state cfg st url d i st1 happ
    obtain ⟨hm2, _, _, _⟩ := rewriteRefPathsM_state cfg st1 (urlNonFragment url)
    rw [rememberReplacementForRef_fresh _ _ _ (by
      rw [hm2, hm1]; exact hfresh)]
    rw [hkeys]
    simp only [Bool.not_true, Bool.false_eq_true, reduceIte]
    rw [checkComponentConflict_of_empty cfg
      { rewriteRefPathsM cfg st1 (urlNonFragment url) with
        memo := (rewriteRefPathsM cfg st1 (urlNonFragment url)).memo ++
          [(url.href, navAsFragment nav)] }
      refObject sec name (urlNonFragment url).href hslot]
    simp only [hnav, Bool.false_eq_true, reduceIte]
  · intro k hk
    exact Json.find?_setKey_ne refObject "$ref" k _ hk

/-- Witness for C8: on the concrete fixture — a reference node with a sibling
`description` at the non-component position `/paths/~1t/get/schema` — the call
site keeps the node, its `description` sibling survives, and its `$ref` is the
local component fragment. -/
theorem C8_witness : isAtComponent c8nav = false ∧
    (processComponentReplacement c8cfg c8st c8url c8ref c8nav).map
        (fun x => (x.1.find? "description", x.1.find? "$ref", x.2.1)) =
      .ok (some (.str "X"), some (.str "#/components/schemas/other"), true) := by
  refine ⟨rfl, ?_⟩
  obtain ⟨heq, _⟩ := C8_call_site_keeps_siblings_component_gets_none c8cfg c8st
    c8url c8ref c8nav "schemas" "other" oDoc (some otherComponent)
    ⟨c8root, [], [("file:///o.yaml", oDoc)], [], [], false,
      ["file:///o.yaml"], true⟩
    otherComponent rfl rfl (by decide) rfl rfl rfl rfl rfl
  rw [heq]
  rfl

/-- C10: a root document already carrying a top-level `x-resolved-from` makes
`resolve` return immediately: the document comes back verbatim (no provenance
stamping and no `x__resolved__` cleanup), no traversal pass runs, and in the
given-document case the state is the untouched initial state (in particular
nothing was fetched); in the loaded case the only fetch is the root load
itself (the state is exactly the post-load state). -/
theorem C10_already_resolved_early_return (cfg : Config) (doc : Json)
    (pf wf : Nat) (h : doc.hasKey "x-resolved-from" = true) :
    resolve cfg (some doc) pf wf =
      .ok ({ api := doc, options := cfg.options }, {}) ∧
    (∀ d i st', apiFetch cfg {} ⟨cfg.rootUrl, ""⟩ = .ok (d, i, st') →
      d.hasKey "x-resolved-from" = true →
      resolve cfg none pf wf = .ok ({ api := d, options := cfg.options }, st')) := by
  constructor
  · unfold resolve
    simp only [bind, Except.bind, pure, Except.pure, h, reduceIte]
  · intro d i st' happ hd
    unfold resolve
    simp only [bind, Except.bind, pure, Except.pure]
    rw [happ]
    simp only [hd, reduceIte]

/-- Witness for C10: the fixture root document is already stamped with
`x-resolved-from` and holds a stray `x__resolved__` marker; `resolve` (loading
it from the world) returns it verbatim — marker intact, so no cleanup ran —
having fetched only the root itself. -/
theorem C10_witness :
    (resolve c10cfg none 5 100).map (fun x => (x.1.api, x.2.fetched)) =
      .ok (c10doc, ["file:///api.yaml"]) ∧
    NoMarkers c10doc = false := by
  refine ⟨?_, rfl⟩
  have h := (C10_already_resolved_early_return c10cfg c10doc 5 100 rfl).2 c10doc
    none
    ⟨.null, [], [("file:///api.yaml", c10doc)], [], [], false,
      ["file:///api.yaml"], false⟩
    rfl rfl
  rw [h]
  rfl

/-- C5: within one run the memo is consulted before it is extended.  First
conjunct: the resolving visitor can never fail with the double-registration
assertion (`rememberReplacementForRef` is only reached behind a memo miss on
the same key, and nothing between the miss and the registration touches the
memo), for any state whatsoever.  Second conjunct: a reference string that
already has a recorded replacement is rewritten to that replacement with the
state — including the fetch log and the cache — completely untouched (no
document is fetched). -/
theorem C5_memoized_refs_never_reregistered_or_refetched (cfg : Config)
    (st : RState) (refObject : Json) (nav : List JKey) :
    (∀ s, refResolvingVisitor cfg st refObject nav ≠ .error (.doubleRegister s)) ∧
    (∀ ref rep, refObject.find? "$ref" = some (.str ref) →
      strStartsWith ref "#" = false →
      replacementForRef st ref = some rep →
      refResolvingVisitor cfg st refObject nav =
        .ok (refObject.setKey "$ref" (.str rep), true, st)) := by
  constructor
  · intro s h
    unfold refResolvingVisitor at h
    split at h
    · split at h
      · exact Except.noConfusion h
      · split at h
        · exact Except.noConfusion h
        · dsimp only at h
          split at h
          · exact processFullReplacement_no_doubleRegister _ _ _ _ _ s h
          · split at h
            · exact processComponentReplacement_no_doubleRegister _ _ _ _ _ s h
            · exact processOtherReplacement_no_doubleRegister _ _ _ _ _ s h
    · exact Except.noConfusion h
  · intro ref rep href hlocal hmemo
    unfold refResolvingVisitor
    rw [href]
    dsimp only
    rw [hlocal, hmemo]
    simp

/-- Witness for C5 at a concrete memo-hit: the visitor rewrites the node's
`$ref` to the recorded replacement and leaves the state untouched. -/
theorem C5_witness_memo_hit :
    refResolvingVisitor c7cfg c5st c5ref [.str "x"] =
      .ok (c5ref.setKey "$ref" (.str "#/components/schemas/t"), true, c5st) :=
  (C5_memoized_refs_never_reregistered_or_refetched c7cfg c5st c5ref
    [.str "x"]).2 "file:///q.yaml#/components/schemas/t"
    "#/components/schemas/t" rfl rfl rfl

/-- Witness for C9 at the concrete `c9*` scenario: the memo entry recorded for
`file:///p.yaml#/paths/~1health/get` is the source fragment
`#/paths/~1health/get` (the navigation of the call site was
`/paths/~1health`, a different fragment). -/
theorem C9_witness_source_fragment_memoized :
    (processOtherReplacement c9cfg c9st c9url c9ref
        "file:///p.yaml#/paths/~1health/get").map
      (fun x => (x.2.2.memo, x.2.1)) =
    .ok (c9st.memo ++
      [("file:///p.yaml#/paths/~1health/get", "#/paths/~1health/get")], false) := by
  have hok : isOkB (processOtherReplacement c9cfg c9st c9url c9ref
      "file:///p.yaml#/paths/~1health/get") = true := by rfl
  cases hrun : processOtherReplacement c9cfg c9st c9url c9ref
      "file:///p.yaml#/paths/~1health/get" with
  | error e => rw [hrun] at hok; exact Bool.noConfusion hok
  | ok v =>
    obtain ⟨r, same, st'⟩ := v
    obtain ⟨hm, hs⟩ := C9_other_memoizes_source_fragment c9cfg c9st c9url c9ref
      "file:///p.yaml#/paths/~1health/get" r same st' (by decide) rfl rfl hrun
    simp only [hrun, Except.map, hm, hs]
    rfl

/-- C1: When the component inliner lands `health` at
`/components/schemas/health` and that slot already holds a component resolved
from a different source location (`s1.yaml`), under the `rename` strategy the
code does **not** choose `health1`: the rename loop scans the keys of the
top-level `components` object (the section names) instead of the keys of the
`schemas` section, finds `health` "free", keeps the landing name `health`,
and the subsequent insertion overwrites the existing component — afterwards
the section holds a single `health` (the second component, from `s2.yaml`)
and no `health1`.  This contradicts the claim (and the repository's own test,
which expects `health` and `health1`). -/
theorem C1_rename_keeps_colliding_name_and_overwrites :
    (checkComponentConflict (conflictCfg (some .rename)) conflictState conflictRef
        [.str "components", .str "schemas", .str "health"] "file:///s2.yaml").map
      (fun r => r.2.2) = .ok ⟨"schemas", "health"⟩ ∧
    (processComponentReplacement (conflictCfg (some .rename)) conflictState
        conflictUrl conflictRef conflictNav).map
      (fun r => getAt r.2.2.apiDocument [.str "components", .str "schemas"]) =
    .ok (some (.obj [("health", .obj [("title", .str "H2"), ("type", .str "object"),
      ("x-resolved-from", .str "file:///s2.yaml#/components/schemas/health"),
      ("x__resolved__", .bool true)])])) :=
  ⟨rfl, rfl⟩

/-- C2: Under the `error` strategy the run does fail at the conflicting slot,
but the thrown error message is the constant string
`"Cannot embed component "`, which names neither the colliding component path
nor either source location (the repository's own test expects the message to
contain `components,schemas,health`). -/
theorem C2_conflict_error_message_is_constant :
    processComponentReplacement (conflictCfg (some .error)) conflictState
      conflictUrl conflictRef conflictNav =
    .error (.thrown "Cannot embed component ") :=
  rfl

/-- C3 counterexample: the navigation path is the component slot
`/components/schemas/localName` while the target component is the differently
named `/components/schemas/other`, and still the reference node is replaced in
place by the (tagged) target item — the returned node is not a rewritten
forwarding reference (it has no `$ref` at all), refuting the claim that the
in-place passthrough happens only when section and name are identical. -/
theorem C3_counterexample_in_place_despite_name_mismatch :
    (processComponentReplacement c3cfg c3st c3url c3ref c3nav).map
      (fun r => (r.1, r.2.1)) =
    .ok (.obj [("title", .str "Other"), ("type", .str "object"),
      ("x-resolved-from", .str "file:///o.yaml#/components/schemas/other"),
      ("x__resolved__", .bool true)], false) :=
  rfl

/-- C4 counterexample: in a single traversal pass over a document whose
`wrapper` node is a reference object carrying `x__resolved__`, the visitor is
not invoked on `wrapper` itself (its `$ref` stays untouched), but the walk
still recurses into `wrapper`'s descendants: the nested reference at
`/wrapper/extra/inner` is processed — its `$ref` is rewritten to a local
fragment and a memo entry is recorded — refuting the claim that none of the
marked node's descendants are visited. -/
theorem C4_counterexample_descendants_are_visited :
    (walkPath c3cfg 20 [] c4st).map
      (fun st => (st.memo.lookup "file:///o.yaml#/components/schemas/other",
                  getAt st.apiDocument [.str "wrapper", .str "$ref"],
                  getAt st.apiDocument [.str "wrapper", .str "extra", .str "inner", .str "$ref"])) =
    .ok (some "#/wrapper/extra/inner", some (.str "file:///o.yaml"),
         some (.str "#/components/schemas/other")) :=
  rfl

end ARR
